import Mathlib

/-!
Shallow embedding of the Bela game engine (src/src/engine/types.ts and the
rules module src/unnamed/part_001) together with theorems settling the frozen
claims about it.  Definitions are translated directly from the TypeScript
source; names follow the source where Lean allows.  JavaScript numbers that
only ever hold non-negative integers here (indices, points, scores, levels)
are modelled as Nat.  The impure parts of the source (Math.random shuffling,
Date.now timestamps, random event ids) are modelled by taking the shuffled
deck as an explicit parameter and by dropping the id/timestamp/data payload
of events, none of which influences any control flow of the engine other
than the event `type` and acting player, which are kept.
-/

namespace Bela

/-- types.ts: `type Suit = 'hearts' | 'diamonds' | 'clubs' | 'spades'` -/
inductive Suit where
  | hearts | diamonds | clubs | spades
deriving DecidableEq, Repr

/-- types.ts: `type Rank = '7' | '8' | '9' | '10' | 'J' | 'Q' | 'K' | 'A'` -/
inductive Rank where
  | r7 | r8 | r9 | r10 | rJ | rQ | rK | rA
deriving DecidableEq, Repr

/-- types.ts: `interface Card { suit: Suit; rank: Rank }` -/
structure Card where
  suit : Suit
  rank : Rank
deriving DecidableEq, Repr

/-- types.ts: `type PlayerId = 'north' | 'east' | 'south' | 'west'` -/
inductive PlayerId where
  | north | east | south | west
deriving DecidableEq, Repr

/-- types.ts: `type TeamId = 'team1' | 'team2'` -/
inductive TeamId where
  | team1 | team2
deriving DecidableEq, Repr

/-- types.ts: `type TrumpCall = { suit; playerId; level }` -/
structure TrumpCall where
  suit : Suit
  playerId : PlayerId
  level : Nat
deriving DecidableEq, Repr

/-- types.ts: `interface Player { id; name; team; hand; isDeclarer }` -/
structure Player where
  id : PlayerId
  name : String
  team : TeamId
  hand : List Card
  isDeclarer : Bool
deriving DecidableEq, Repr

/-- types.ts: `type Phase = 'deal' | 'bidding' | 'dealerChoice' | 'play' | 'scoring' | 'gameOver'` -/
inductive Phase where
  | deal | bidding | dealerChoice | play | scoring | gameOver
deriving DecidableEq, Repr

/-- One entry of `Trick.cards`: `{ playerId: PlayerId; card: Card }`. -/
structure TrickEntry where
  playerId : PlayerId
  card : Card
deriving DecidableEq, Repr

/-- types.ts: `interface Trick { cards; winner: PlayerId | null; points: number }` -/
structure Trick where
  cards : List TrickEntry
  winner : Option PlayerId
  points : Nat
deriving DecidableEq, Repr

/-- types.ts: declaration type tags. -/
inductive DeclType where
  | bela | tierce | quarte | quint | belot
deriving DecidableEq, Repr

/-- types.ts: `interface Declaration { type; playerId; cards; points }` -/
structure Declaration where
  type : DeclType
  playerId : PlayerId
  cards : List Card
  points : Nat
deriving DecidableEq, Repr

/-- Event type tags used by the engine (types.ts has `type: string`; the
engine only ever emits these five strings). -/
inductive EventType where
  | bid | pass | play_card | trick_complete | hand_complete
deriving DecidableEq, Repr

/-- types.ts `GameEvent`, restricted to the fields the engine reads back
(`type` is filtered on in applyPass; `playerId` records the acting seat).
The `id`, `timestamp` and `data` fields come from Date.now / Math.random and
are never read by any transition, so they are not modelled. -/
structure GameEvent where
  type : EventType
  playerId : Option PlayerId
deriving DecidableEq, Repr

/-- types.ts: `interface GameConfig`. -/
structure GameConfig where
  mustFollowSuit : Bool
  mustTrumpWhenVoid : Bool
  overtrumpRequired : Bool
  declarationsEnabled : Bool
  lastTrickBonus : Bool
  matchTargetScore : Nat
deriving DecidableEq, Repr

/-- `Record<TeamId, number>` for scores. -/
structure Scores where
  team1 : Nat
  team2 : Nat
deriving DecidableEq, Repr

/-- `Record<PlayerId, Player>`. -/
structure Players where
  north : Player
  east : Player
  south : Player
  west : Player
deriving DecidableEq, Repr

/-- Look a player up in the record. -/
def Players.get (ps : Players) : PlayerId → Player
  | .north => ps.north
  | .east => ps.east
  | .south => ps.south
  | .west => ps.west

/-- Replace one player in the record. -/
def Players.set (ps : Players) : PlayerId → Player → Players
  | .north, p => { ps with north := p }
  | .east, p => { ps with east := p }
  | .south, p => { ps with south := p }
  | .west, p => { ps with west := p }

/-- types.ts: `interface GameState`. -/
structure GameState where
  phase : Phase
  deck : List Card
  players : Players
  currentPlayer : PlayerId
  declarer : Option PlayerId
  trump : Option Suit
  currentTrick : Trick
  tricks : List Trick
  currentBid : Option TrumpCall
  bids : List TrumpCall
  declarations : List Declaration
  handScores : Scores
  matchScores : Scores
  events : List GameEvent
  config : GameConfig
  dealer : PlayerId
  talon : List Card
deriving DecidableEq, Repr

/-- types.ts: `RANK_ORDER = ['7','8','9','10','J','Q','K','A']`. -/
def RANK_ORDER : List Rank :=
  [.r7, .r8, .r9, .r10, .rJ, .rQ, .rK, .rA]

/-- types.ts: `PLAYER_ORDER = ['north','east','south','west']`. -/
def PLAYER_ORDER : List PlayerId :=
  [.north, .east, .south, .west]

/-- types.ts / rules.ts: `getRankIndex(rank) = RANK_ORDER.indexOf(rank)`. -/
def getRankIndex (rank : Rank) : Nat :=
  RANK_ORDER.indexOf rank

/-- types.ts: `CARD_VALUES` (A=11, 10=10, K=4, Q=3, J=2, 9/8/7=0). -/
def CARD_VALUES : Rank → Nat
  | .rA => 11
  | .r10 => 10
  | .rK => 4
  | .rQ => 3
  | .rJ => 2
  | _ => 0

/-- types.ts: `getPlayerTeam(p) = p === 'north' || p === 'south' ? 'team1' : 'team2'`. -/
def getPlayerTeam (playerId : PlayerId) : TeamId :=
  if playerId = .north ∨ playerId = .south then .team1 else .team2

/-- types.ts: `getNextPlayer(p) = PLAYER_ORDER[(PLAYER_ORDER.indexOf(p) + 1) % 4]`. -/
def getNextPlayer (playerId : PlayerId) : PlayerId :=
  PLAYER_ORDER.getD ((PLAYER_ORDER.indexOf playerId + 1) % 4) .north

/-- The string value of a `Suit` in the source ('hearts', ...). -/
def suitName : Suit → String
  | .hearts => "hearts"
  | .diamonds => "diamonds"
  | .clubs => "clubs"
  | .spades => "spades"

/-- The string value of a `Rank` in the source ('7', ..., 'A'). -/
def rankName : Rank → String
  | .r7 => "7"
  | .r8 => "8"
  | .r9 => "9"
  | .r10 => "10"
  | .rJ => "J"
  | .rQ => "Q"
  | .rK => "K"
  | .rA => "A"

/-- ASCII `toUpperCase` on one character (the strings involved are ASCII;
JavaScript's toUpperCase agrees with this on them). -/
def asciiUpper (c : Char) : Char :=
  if 'a' ≤ c ∧ c ≤ 'z' then Char.ofNat (c.toNat - 32) else c

/-- ASCII `toLowerCase` on one character. -/
def asciiLower (c : Char) : Char :=
  if 'A' ≤ c ∧ c ≤ 'Z' then Char.ofNat (c.toNat + 32) else c

/-- JavaScript `s[0].toUpperCase()` (empty when the string is empty). -/
def firstLetterUpper (s : String) : String :=
  match s.data with
  | [] => ""
  | c :: _ => String.mk [asciiUpper c]

/-- types.ts: `cardToString(card)` = rank string followed by the upper-cased
first letter of the suit string. -/
def cardToString (card : Card) : String :=
  rankName card.rank ++ firstLetterUpper (suitName card.suit)

/-- The runtime shape of the object `stringToCard` builds: both fields are
plain strings (the `as Rank` / `as Suit` casts in the source are unchecked). -/
structure RawCard where
  rank : String
  suit : String
deriving DecidableEq, Repr

/-- JavaScript `str.slice(0, -1)`: all characters but the last. -/
def jsSliceInit (str : String) : String :=
  String.mk str.data.dropLast

/-- JavaScript `str.slice(-1).toLowerCase()`: the last character (empty when
the string is empty), lower-cased. -/
def jsSliceLastLower (str : String) : String :=
  match str.data.getLast? with
  | none => ""
  | some c => String.mk [asciiLower c]

/-- types.ts: `stringToCard(str)` takes `str.slice(0,-1)` as the rank and the
lower-cased `str.slice(-1)` as the suit. -/
def stringToCard (str : String) : RawCard :=
  { rank := jsSliceInit str, suit := jsSliceLastLower str }

/-- rules.ts: `DEFAULT_CONFIG`. -/
def DEFAULT_CONFIG : GameConfig :=
  { mustFollowSuit := true
    mustTrumpWhenVoid := true
    overtrumpRequired := false
    declarationsEnabled := true
    lastTrickBonus := true
    matchTargetScore := 1001 }

/-- The 32-card deck as `generateDeck` builds it before its Fisher-Yates
shuffle (suits in source order, ranks in source order).  The shuffle itself
uses Math.random, so the shuffled deck is modelled as an arbitrary
permutation of this list, passed explicitly to the deal. -/
def generateDeckUnshuffled : List Card :=
  [Suit.hearts, Suit.diamonds, Suit.clubs, Suit.spades].flatMap fun suit =>
    RANK_ORDER.map fun rank => { suit := suit, rank := rank }

/-- JavaScript `deck.pop()`: removes and returns the last element. -/
def jsPop (deck : List Card) : Option (Card × List Card) :=
  match deck.getLast? with
  | none => none
  | some c => some (c, deck.dropLast)

/-- One inner loop of `dealCards`: `for (i = 0..3) if (deck.length > 0)
players[player].push(deck.pop())`.  Returns the popped cards in push order
and the remaining deck. -/
def giveCards (deck : List Card) : Nat → List Card × List Card
  | 0 => ([], deck)
  | n + 1 =>
    match jsPop deck with
    | none => ([], deck)
    | some (c, rest) =>
      let next := giveCards rest n
      (c :: next.1, next.2)

/-- The alphabetical position of a suit's string value, as
`a.suit.localeCompare(b.suit)` orders them: clubs < diamonds < hearts <
spades. -/
def suitSortKey : Suit → Nat
  | .clubs => 0
  | .diamonds => 1
  | .hearts => 2
  | .spades => 3

/-- Comparison used by the display sort in `dealCards`: ascending on the
suit string (by localeCompare), then descending on rank index. -/
def handSortLE (a b : Card) : Prop :=
  suitSortKey a.suit < suitSortKey b.suit ∨
    (a.suit = b.suit ∧ getRankIndex b.rank ≤ getRankIndex a.rank)

instance : DecidableRel handSortLE := fun a b => by
  unfold handSortLE; infer_instance

/-- `Record<PlayerId, Card[]>` built by dealCards. -/
structure Hands where
  north : List Card
  east : List Card
  south : List Card
  west : List Card
deriving DecidableEq, Repr

/-- Look a hand up in the record. -/
def Hands.get (hs : Hands) : PlayerId → List Card
  | .north => hs.north
  | .east => hs.east
  | .south => hs.south
  | .west => hs.west

/-- rules.ts `dealCards(deck)`: two rounds, in each round each player of
PLAYER_ORDER pops 4 cards off the end of the deck; afterwards each hand is
sorted for display (cosmetic ordering, grouped by suit, descending rank). -/
def dealCards (deck : List Card) : Hands :=
  let g1 := giveCards deck 4
  let g2 := giveCards g1.2 4
  let g3 := giveCards g2.2 4
  let g4 := giveCards g3.2 4
  let g5 := giveCards g4.2 4
  let g6 := giveCards g5.2 4
  let g7 := giveCards g6.2 4
  let g8 := giveCards g7.2 4
  { north := (g1.1 ++ g5.1).insertionSort handSortLE
    east := (g2.1 ++ g6.1).insertionSort handSortLE
    south := (g3.1 ++ g7.1).insertionSort handSortLE
    west := (g4.1 ++ g8.1).insertionSort handSortLE }

/-- The `dealtCards` string set built in `createInitialState`: the
`cardToString` image of every dealt hand, in PLAYER_ORDER. -/
def dealtCardStrings (hands : Hands) : List String :=
  (PLAYER_ORDER.flatMap fun player => hands.get player).map cardToString

/-- The `remainingDeck` of `createInitialState`: cards of the deck whose
string form is not among the dealt cards. -/
def remainingAfterDeal (deck : List Card) : List Card :=
  deck.filter fun card => ¬ (dealtCardStrings (dealCards deck)).contains (cardToString card)

/-- rules.ts `createInitialState(config)`.  The source calls `generateDeck()`
internally; the shuffled deck is taken as a parameter here (see
`generateDeckUnshuffled`), and the `Partial<GameConfig>` merge with
DEFAULT_CONFIG is modelled by taking the merged configuration directly. -/
def createInitialState (fullConfig : GameConfig) (deck : List Card) : GameState :=
  let hands := dealCards deck
  let remainingDeck := remainingAfterDeal deck
  let talon := remainingDeck.drop (remainingDeck.length - 2)
  let dealer : PlayerId := .south
  { phase := .bidding
    deck := remainingDeck.take (remainingDeck.length - 2)
    players :=
      { north := { id := .north, name := "North", team := .team1, hand := hands.north, isDeclarer := false }
        east := { id := .east, name := "East", team := .team2, hand := hands.east, isDeclarer := false }
        south := { id := .south, name := "You", team := .team1, hand := hands.south, isDeclarer := false }
        west := { id := .west, name := "West", team := .team2, hand := hands.west, isDeclarer := false } }
    currentPlayer := getNextPlayer dealer
    declarer := none
    trump := none
    currentTrick := { cards := [], winner := none, points := 0 }
    tricks := []
    currentBid := none
    bids := []
    declarations := []
    handScores := { team1 := 0, team2 := 0 }
    matchScores := { team1 := 0, team2 := 0 }
    events := []
    config := fullConfig
    dealer := dealer
    talon := talon }

/-- rules.ts `isTrump(card, trump)`: `card.suit === trump` (false when the
trump slot holds null). -/
def isTrumpCard (card : Card) (trump : Option Suit) : Bool :=
  some card.suit = trump

/-- rules.ts `cardBeats(card, leadCard, trump, isFirstTrump)`, translated
branch for branch.  The parameter is typed `Suit` in the source but can hold
null at runtime (`state.trump!`), which the `if (!trump)` branch handles, so
it is an `Option Suit` here. -/
def cardBeats (card leadCard : Card) (trump : Option Suit) (isFirstTrump : Bool) : Bool :=
  let cardIsTrump := isTrumpCard card trump
  let leadIsTrump := isTrumpCard leadCard trump
  if trump = none then
    card.suit = leadCard.suit ∧ getRankIndex card.rank > getRankIndex leadCard.rank
  else if cardIsTrump ∧ ¬ leadIsTrump then
    true
  else if ¬ cardIsTrump ∧ leadIsTrump then
    false
  else if cardIsTrump ∧ leadIsTrump then
    if isFirstTrump then true
    else getRankIndex card.rank > getRankIndex leadCard.rank
  else if card.suit = leadCard.suit then
    getRankIndex card.rank > getRankIndex leadCard.rank
  else
    false

/-- rules.ts `getCardsOfSuit(hand, suit)`. -/
def getCardsOfSuit (hand : List Card) (suit : Suit) : List Card :=
  hand.filter fun card => card.suit = suit

/-- rules.ts `getTrumpCards(hand, trump)`. -/
def getTrumpCards (hand : List Card) (trump : Suit) : List Card :=
  hand.filter fun card => card.suit = trump

/-- rules.ts `legalMoves(state, playerId)`, translated branch for branch.
The source computes `leadIsTrump` but never uses it; `highestTrumpLead` is
the head of the trick's trump cards sorted by descending rank, of which only
the rank is read — it is modelled as the maximal trump rank index in the
trick. -/
def legalMoves (state : GameState) (playerId : PlayerId) : List Card :=
  let hand := (state.players.get playerId).hand
  match state.trump with
  | none => hand
  | some trump =>
    let currentTrick := state.currentTrick
    match currentTrick.cards with
    | [] => hand
    | lead :: _ =>
      let leadSuit := lead.card.suit
      let cardsOfLeadSuit := getCardsOfSuit hand leadSuit
      let trumpCards := getTrumpCards hand trump
      if cardsOfLeadSuit.length > 0 then
        cardsOfLeadSuit
      else if currentTrick.cards.any (fun c => c.card.suit = trump) then
        if trumpCards.length > 0 then
          if state.config.overtrumpRequired then
            match (currentTrick.cards.filter fun c => c.card.suit = trump) with
            | [] => trumpCards
            | t :: ts =>
              let highestTrumpLeadRank :=
                ts.foldl (fun m c => max m (getRankIndex c.card.rank)) (getRankIndex t.card.rank)
              let higherTrumps :=
                trumpCards.filter fun c => getRankIndex c.rank > highestTrumpLeadRank
              if higherTrumps.length > 0 then higherTrumps else trumpCards
          else trumpCards
        else hand
      else hand

/-- rules.ts `evaluateTrick(trick, trump)`: returns none where the source
throws `Error('Empty trick')`; otherwise folds over the cards keeping the
best card, its player and the `isFirstTrump` flag exactly as the source's
loop does (the flag is set once the winning card is a trump and never
cleared). -/
def evaluateTrick (trick : Trick) (trump : Option Suit) : Option PlayerId :=
  match trick.cards with
  | [] => none
  | [e] => some e.playerId
  | first :: rest =>
    let init : Card × PlayerId × Bool :=
      (first.card, first.playerId, isTrumpCard first.card trump)
    let final := rest.foldl
      (fun acc e =>
        let bestCard := acc.1
        let isFirstTrump := acc.2.2
        if cardBeats e.card bestCard trump isFirstTrump then
          (e.card, e.playerId,
            if isTrumpCard e.card trump ∧ ¬ isFirstTrump then true else isFirstTrump)
        else acc)
      init
    some final.2.1

/-- rules.ts `scoreTrick(trick, trump)`: sums CARD_VALUES over the played
cards; the source selects between CARD_VALUES and CARD_VALUES according to
trumpness, i.e. the table is suit-independent. -/
def scoreTrick (trick : Trick) (trump : Option Suit) : Nat :=
  trick.cards.foldl (fun points e => points + CARD_VALUES e.card.rank) 0

/-- Length of the run of consecutive rank indices at the front of a
(rank-ascending sorted) list of cards: the inner `consecutive` count of the
declaration scan. -/
def runLen : List Card → Nat
  | a :: b :: rest =>
    if getRankIndex b.rank = getRankIndex a.rank + 1 then runLen (b :: rest) + 1 else 1
  | _ => 1

/-- Rank-ascending comparison used by the declaration scan's sort. -/
def rankAscLE (a b : Card) : Prop :=
  getRankIndex a.rank ≤ getRankIndex b.rank

instance : DecidableRel rankAscLE := fun a b => by
  unfold rankAscLE; infer_instance

/-- rules.ts `checkDeclarations(state, playerId)`: bela (K+Q of trump), then
for each suit a scan over every start index of the rank-sorted suit cards,
registering quint/quarte/tierce by the run length found there. -/
def checkDeclarations (state : GameState) (playerId : PlayerId) : List Declaration :=
  match state.trump with
  | none => []
  | some trump =>
    if ¬ state.config.declarationsEnabled then []
    else
      let hand := (state.players.get playerId).hand
      let trumpCards := hand.filter fun c => c.suit = trump
      let hasK := trumpCards.any fun c => c.rank = .rK
      let hasQ := trumpCards.any fun c => c.rank = .rQ
      let belaDecls : List Declaration :=
        if hasK ∧ hasQ then
          [{ type := .bela, playerId := playerId,
             cards := trumpCards.filter fun c => c.rank = .rK ∨ c.rank = .rQ,
             points := 20 }]
        else []
      let runDecls : List Declaration :=
        [Suit.hearts, Suit.diamonds, Suit.clubs, Suit.spades].flatMap fun suit =>
          let suitCards := (hand.filter fun c => c.suit = suit).insertionSort rankAscLE
          (List.range suitCards.length).flatMap fun i =>
            let tail := suitCards.drop i
            let consecutive := runLen tail
            if consecutive ≥ 5 then
              [{ type := .quint, playerId := playerId, cards := tail.take 5, points := 100 }]
            else if consecutive ≥ 4 then
              [{ type := .quarte, playerId := playerId, cards := tail.take 4, points := 50 }]
            else if consecutive ≥ 3 then
              [{ type := .tierce, playerId := playerId, cards := tail.take 3, points := 20 }]
            else []
      belaDecls ++ runDecls

/-- Result record of `endOfHandScoring`. -/
structure ScoringResult where
  handScores : Scores
  matchScores : Scores
  contractBonus : Nat
deriving DecidableEq, Repr

/-- rules.ts `endOfHandScoring(state)`, translated statement for statement.
A trick whose `winner` is null contributes to team2 (in the source
`getPlayerTeam(undefined)` falls through to 'team2').  The error case models
the runtime TypeError the source hits reading
`state.tricks[state.tricks.length - 1].winner` when the last-trick bonus is
enabled and no trick has been completed. -/
def endOfHandScoring (state : GameState) : Except String ScoringResult :=
  match state.trump, state.declarer with
  | some _, some declarer =>
    let trickTotals : Nat × Nat := state.tricks.foldl
      (fun acc trick =>
        let team := match trick.winner with
          | some w => getPlayerTeam w
          | none => TeamId.team2
        match team with
        | .team1 => (acc.1 + trick.points, acc.2)
        | .team2 => (acc.1, acc.2 + trick.points))
      (0, 0)
    let afterBonus : Except String (Nat × Nat) :=
      if state.config.lastTrickBonus then
        match state.tricks.getLast? with
        | none => Except.error "no completed trick for last trick bonus"
        | some lastTrick =>
          let team := match lastTrick.winner with
            | some w => getPlayerTeam w
            | none => TeamId.team2
          match team with
          | .team1 => Except.ok (trickTotals.1 + 10, trickTotals.2)
          | .team2 => Except.ok (trickTotals.1, trickTotals.2 + 10)
      else Except.ok trickTotals
    afterBonus.map fun totals =>
      let declTotals : Nat × Nat := state.declarations.foldl
        (fun acc decl =>
          match getPlayerTeam decl.playerId with
          | .team1 => (acc.1 + decl.points, acc.2)
          | .team2 => (acc.1, acc.2 + decl.points))
        (0, 0)
      let team1Points := totals.1 + declTotals.1
      let team2Points := totals.2 + declTotals.2
      let declarerTeam := getPlayerTeam declarer
      let contractThreshold : Nat := 162
      let team1MadeContract : Bool :=
        match declarerTeam with
        | .team1 => team1Points > contractThreshold
        | .team2 => team2Points > contractThreshold
      let contractBonus : Nat := if team1MadeContract then 90 else 0
      let newHandScores : Scores :=
        { team1 := team1Points + (if team1MadeContract then contractBonus else 0)
          team2 := team2Points + (if team1MadeContract then 0 else contractBonus) }
      { handScores := newHandScores
        matchScores :=
          { team1 := state.matchScores.team1 + newHandScores.team1
            team2 := state.matchScores.team2 + newHandScores.team2 }
        contractBonus := contractBonus }
  | _, _ =>
    Except.ok
      { handScores := state.handScores
        matchScores := state.matchScores
        contractBonus := 0 }

/-- rules.ts `applyMove(state, move)`: removes the card from the hand
(throwing — here `Except.error` — when absent), appends it to the current
trick and the event log, finalizes the trick at 4 cards (winner and points
set, trick pushed to history, current trick reset, winner leads), otherwise
advances to the next player, and runs end-of-hand scoring when the acting
hand just emptied during play. -/
def applyMove (state : GameState) (movePlayerId : PlayerId) (moveCard : Card) :
    Except String GameState :=
  let player := state.players.get movePlayerId
  match player.hand.findIdx? (fun c => c.suit = moveCard.suit ∧ c.rank = moveCard.rank) with
  | none => Except.error "Card not in hand"
  | some cardIndex =>
    let hand1 := player.hand.eraseIdx cardIndex
    let trick1 : Trick :=
      { state.currentTrick with
        cards := state.currentTrick.cards ++ [{ playerId := movePlayerId, card := moveCard }] }
    let s1 : GameState :=
      { state with
        players := state.players.set movePlayerId { player with hand := hand1 }
        currentTrick := trick1
        events := state.events ++ [{ type := .play_card, playerId := some movePlayerId }] }
    let step2 : Except String GameState :=
      if trick1.cards.length = 4 then
        match evaluateTrick trick1 state.trump with
        | none => Except.error "Empty trick"
        | some winner =>
          Except.ok
            { s1 with
              currentTrick := { cards := [], winner := none, points := 0 }
              tricks := s1.tricks ++
                [{ trick1 with winner := some winner, points := scoreTrick trick1 state.trump }]
              events := s1.events ++ [{ type := .trick_complete, playerId := none }]
              currentPlayer := winner }
      else
        Except.ok { s1 with currentPlayer := getNextPlayer movePlayerId }
    match step2 with
    | Except.error e => Except.error e
    | Except.ok s2 =>
      if hand1 = [] ∧ s2.phase = Phase.play then
        match endOfHandScoring { s2 with phase := Phase.scoring } with
        | Except.error e => Except.error e
        | Except.ok scores =>
          Except.ok
            { s2 with
              phase := Phase.scoring
              handScores := scores.handScores
              matchScores := scores.matchScores
              events := s2.events ++ [{ type := .hand_complete, playerId := none }] }
      else Except.ok s2

/-- rules.ts `applyBid(state, bid)`: records the call, sets trump and
declarer, moves the talon (if any) into the bidder's hand, enters the play
phase with the bidder to lead, and runs declaration detection for all four
seats on the resulting state. -/
def applyBid (state : GameState) (bid : TrumpCall) : GameState :=
  let s1 : GameState :=
    { state with
      bids := state.bids ++ [bid]
      currentBid := some bid
      declarer := some bid.playerId
      trump := some bid.suit
      players := state.players.set bid.playerId
        { state.players.get bid.playerId with isDeclarer := true }
      events := state.events ++ [{ type := .bid, playerId := some bid.playerId }] }
  let s2 : GameState :=
    if s1.talon.length > 0 then
      let player := s1.players.get bid.playerId
      { s1 with
        players := s1.players.set bid.playerId { player with hand := player.hand ++ s1.talon }
        talon := [] }
    else s1
  let s3 : GameState := { s2 with phase := .play, currentPlayer := bid.playerId }
  if s3.config.declarationsEnabled then
    { s3 with
      declarations := s3.declarations ++
        PLAYER_ORDER.flatMap fun player => checkDeclarations s3 player }
  else s3

/-- rules.ts `applyPass(state, playerId)`: appends a pass event; while the
talon is unclaimed a pass only rotates the current player — except that the
no-bid branch counts every pass event in the log (including the one just
appended) and moves to `dealerChoice` once that count reaches 3; with the
talon gone and a standing bid, three passes among the last four events end
bidding. -/
def applyPass (state : GameState) (playerId : PlayerId) : GameState :=
  let s1 : GameState :=
    { state with events := state.events ++ [{ type := .pass, playerId := some playerId }] }
  if s1.talon.length > 0 then
    { s1 with currentPlayer := getNextPlayer playerId }
  else
    match s1.currentBid with
    | some _ =>
      let lastActions := s1.events.drop (s1.events.length - 4)
      let passes := (lastActions.filter fun e => e.type = .pass).length
      if passes ≥ 3 then
        { s1 with phase := .play, currentPlayer := getNextPlayer s1.dealer }
      else
        { s1 with currentPlayer := getNextPlayer playerId }
    | none =>
      let passes := (s1.events.filter fun e => e.type = .pass).length
      if passes ≥ 3 then
        { s1 with currentPlayer := s1.dealer, phase := .dealerChoice }
      else
        { s1 with currentPlayer := getNextPlayer playerId }

/-- rules.ts `applyDealerChoice(state, suit)`: the dealer becomes declarer
at the chosen trump with no talon award, play starts with the dealer, and
declarations are detected for all four seats. -/
def applyDealerChoice (state : GameState) (suit : Suit) : GameState :=
  let bid : TrumpCall := { playerId := state.dealer, suit := suit, level := 1 }
  let s1 : GameState :=
    { state with
      bids := state.bids ++ [bid]
      currentBid := some bid
      declarer := some state.dealer
      trump := some suit
      players := state.players.set state.dealer
        { state.players.get state.dealer with isDeclarer := true }
      events := state.events ++ [{ type := .bid, playerId := some state.dealer }] }
  let s2 : GameState := { s1 with phase := .play, currentPlayer := s1.dealer }
  if s2.config.declarationsEnabled then
    { s2 with
      declarations := s2.declarations ++
        PLAYER_ORDER.flatMap fun player => checkDeclarations s2 player }
  else s2

/-- A reachable engine state: produced by `createInitialState` (for some
configuration and some shuffled deck) or by one of the four transitions from
a reachable state (`applyMove` only when it accepts the move). -/
inductive Reachable : GameState → Prop
  | init (config : GameConfig) (deck : List Card) :
      Reachable (createInitialState config deck)
  | move {s s2 : GameState} (pid : PlayerId) (c : Card) :
      Reachable s → applyMove s pid c = Except.ok s2 → Reachable s2
  | bid {s : GameState} (b : TrumpCall) :
      Reachable s → Reachable (applyBid s b)
  | pass {s : GameState} (pid : PlayerId) :
      Reachable s → Reachable (applyPass s pid)
  | dealerChoice {s : GameState} (suit : Suit) :
      Reachable s → Reachable (applyDealerChoice s suit)

/-- The inductive strengthening of the trick invariant: in every state the
engine hands out, the current trick has at most 3 cards with winner and
points still at their cleared values (the 4th card finalizes the trick
within the same transition), and every trick in the history has exactly 4
cards and a winner. -/
def TrickInv (s : GameState) : Prop :=
  s.currentTrick.cards.length ≤ 3 ∧
  s.currentTrick.winner = none ∧
  s.currentTrick.points = 0 ∧
  ∀ t ∈ s.tricks, t.cards.length = 4 ∧ t.winner.isSome

/-- A player record for concrete test states. -/
def testPlayer (pid : PlayerId) (team : TeamId) (hand : List Card) : Player :=
  { id := pid, name := "", team := team, hand := hand, isDeclarer := false }

/-- A minimal play-phase state, specialized by the concrete states below. -/
def baseState : GameState :=
  { phase := .play
    deck := []
    players :=
      { north := testPlayer .north .team1 []
        east := testPlayer .east .team2 []
        south := testPlayer .south .team1 []
        west := testPlayer .west .team2 [] }
    currentPlayer := .north
    declarer := none
    trump := none
    currentTrick := { cards := [], winner := none, points := 0 }
    tricks := []
    currentBid := none
    bids := []
    declarations := []
    handScores := { team1 := 0, team2 := 0 }
    matchScores := { team1 := 0, team2 := 0 }
    events := []
    config := DEFAULT_CONFIG
    dealer := .south
    talon := [] }

/-- A completed trick: hearts led by north, then the trumps 9♠ (east),
A♠ (south), 8♠ (west); trump is spades. -/
def trickLastTrump : Trick :=
  { cards :=
      [ { playerId := .north, card := { suit := .hearts, rank := .r7 } }
      , { playerId := .east, card := { suit := .spades, rank := .r9 } }
      , { playerId := .south, card := { suit := .spades, rank := .rA } }
      , { playerId := .west, card := { suit := .spades, rank := .r8 } } ]
    winner := none
    points := 0 }

/-- End-of-hand state in which the declarer (east) is on team2 and team2
holds 170 trick points against team1's 0; the last-trick bonus is disabled
so the totals are exact. -/
def stateDeclarerTeam2 : GameState :=
  { baseState with
    trump := some .hearts
    declarer := some .east
    tricks :=
      [ { cards :=
            [ { playerId := .north, card := { suit := .hearts, rank := .r7 } }
            , { playerId := .east, card := { suit := .hearts, rank := .rA } }
            , { playerId := .south, card := { suit := .hearts, rank := .r8 } }
            , { playerId := .west, card := { suit := .hearts, rank := .r9 } } ]
          winner := some .east
          points := 170 } ]
    config := { DEFAULT_CONFIG with lastTrickBonus := false } }

/-- End-of-hand state in which the declarer (north, team1) fails the
contract: team1 holds 100 trick points, team2 62. -/
def stateContractFailed : GameState :=
  { baseState with
    trump := some .hearts
    declarer := some .north
    tricks :=
      [ { cards := [], winner := some .north, points := 100 }
      , { cards := [], winner := some .east, points := 62 } ]
    config := { DEFAULT_CONFIG with lastTrickBonus := false } }

/-- The initial state dealt from the unshuffled deck (the identity
permutation of the 32 cards). -/
def initialUnshuffled : GameState :=
  createInitialState DEFAULT_CONFIG generateDeckUnshuffled

/-- Play state: hearts led by north, east to act holding A♥ and 7♣ — so 7♣
is in east's hand but outside `legalMoves` (east must follow suit). -/
def stateOffSuitPlay : GameState :=
  { baseState with
    trump := some .spades
    players :=
      { north := testPlayer .north .team1 []
        east := testPlayer .east .team2
          [ { suit := .hearts, rank := .rA }, { suit := .clubs, rank := .r7 } ]
        south := testPlayer .south .team1 []
        west := testPlayer .west .team2 [] }
    currentPlayer := .east
    currentTrick :=
      { cards := [ { playerId := .north, card := { suit := .hearts, rank := .r7 } } ]
        winner := none
        points := 0 } }

/-- `stateOffSuitPlay` with one completed trick in the history (used to
instantiate theorems whose hypotheses rule out the degenerate
zero-completed-tricks scoring crash). -/
def stateOffSuitPlayTricked : GameState :=
  { stateOffSuitPlay with
    tricks := [ { cards := [], winner := some .north, points := 0 } ] }

/-- Play state with `mustTrumpWhenVoid := false`: hearts led, trump spades
already in the trick, south void in hearts holding 8♠ and 7♦. -/
def stateVoidFlagOff : GameState :=
  { baseState with
    trump := some .spades
    players :=
      { north := testPlayer .north .team1 []
        east := testPlayer .east .team2 []
        south := testPlayer .south .team1
          [ { suit := .spades, rank := .r8 }, { suit := .diamonds, rank := .r7 } ]
        west := testPlayer .west .team2 [] }
    currentPlayer := .south
    currentTrick :=
      { cards :=
          [ { playerId := .north, card := { suit := .hearts, rank := .r7 } }
          , { playerId := .east, card := { suit := .spades, rank := .r9 } } ]
        winner := none
        points := 0 }
    config := { DEFAULT_CONFIG with mustTrumpWhenVoid := false } }

/-! ### Theorems settling the claims -/

/-! Helper lemmas about the dealing loop. -/

theorem jsPop_concat (l : List Card) (a : Card) : jsPop (l ++ [a]) = some (a, l) := by
  simp [jsPop, List.getLast?_concat, List.dropLast_concat]

theorem giveCards_fst_length (n : Nat) (d : List Card) :
    (giveCards d n).1.length = min n d.length := by
  induction n generalizing d with
  | zero => simp [giveCards]
  | succ n ih =>
    rcases List.eq_nil_or_concat d with rfl | ⟨l, a, rfl⟩
    · simp [giveCards, jsPop]
    · rw [List.concat_eq_append]
      simp only [giveCards, jsPop_concat, List.length_cons, List.length_append,
        List.length_singleton, List.length_nil, ih]
      omega

theorem giveCards_snd_length (n : Nat) (d : List Card) :
    (giveCards d n).2.length = d.length - n := by
  induction n generalizing d with
  | zero => simp [giveCards]
  | succ n ih =>
    rcases List.eq_nil_or_concat d with rfl | ⟨l, a, rfl⟩
    · simp [giveCards, jsPop]
    · rw [List.concat_eq_append]
      simp only [giveCards, jsPop_concat, List.length_append, List.length_singleton,
        List.length_nil, ih]
      omega

theorem giveCards_perm (n : Nat) (d : List Card) :
    ((giveCards d n).1 ++ (giveCards d n).2).Perm d := by
  induction n generalizing d with
  | zero => simp [giveCards]
  | succ n ih =>
    rcases List.eq_nil_or_concat d with rfl | ⟨l, a, rfl⟩
    · simp [giveCards, jsPop]
    · rw [List.concat_eq_append]
      simp only [giveCards, jsPop_concat]
      exact List.Perm.trans ((ih l).cons a) (List.perm_append_singleton a l).symm

theorem dealCards_length (d : List Card) (h : d.length = 32) :
    (dealCards d).north.length = 8 ∧ (dealCards d).east.length = 8 ∧
    (dealCards d).south.length = 8 ∧ (dealCards d).west.length = 8 := by
  simp only [dealCards, List.length_insertionSort, List.length_append,
    giveCards_fst_length, giveCards_snd_length, h]
  omega

theorem dealCards_mem {d : List Card} (h : d.length = 32) {c : Card} (hc : c ∈ d) :
    c ∈ (dealCards d).north ∨ c ∈ (dealCards d).east ∨
    c ∈ (dealCards d).south ∨ c ∈ (dealCards d).west := by
  unfold dealCards
  simp only [List.mem_insertionSort, List.mem_append]
  set g1 := giveCards d 4 with hg1
  set g2 := giveCards g1.2 4 with hg2
  set g3 := giveCards g2.2 4 with hg3
  set g4 := giveCards g3.2 4 with hg4
  set g5 := giveCards g4.2 4 with hg5
  set g6 := giveCards g5.2 4 with hg6
  set g7 := giveCards g6.2 4 with hg7
  set g8 := giveCards g7.2 4 with hg8
  have e1 : (g1.1 ++ g1.2).Perm d := by rw [hg1]; exact giveCards_perm 4 d
  have e2 : (g2.1 ++ g2.2).Perm g1.2 := by rw [hg2]; exact giveCards_perm 4 g1.2
  have e3 : (g3.1 ++ g3.2).Perm g2.2 := by rw [hg3]; exact giveCards_perm 4 g2.2
  have e4 : (g4.1 ++ g4.2).Perm g3.2 := by rw [hg4]; exact giveCards_perm 4 g3.2
  have e5 : (g5.1 ++ g5.2).Perm g4.2 := by rw [hg5]; exact giveCards_perm 4 g4.2
  have e6 : (g6.1 ++ g6.2).Perm g5.2 := by rw [hg6]; exact giveCards_perm 4 g5.2
  have e7 : (g7.1 ++ g7.2).Perm g6.2 := by rw [hg7]; exact giveCards_perm 4 g6.2
  have e8 : (g8.1 ++ g8.2).Perm g7.2 := by rw [hg8]; exact giveCards_perm 4 g7.2
  have hnil : g8.2 = [] := by
    refine List.length_eq_zero.mp ?_
    simp only [hg8, giveCards_snd_length, hg7, hg6, hg5, hg4, hg3, hg2, hg1, h]
  rcases List.mem_append.mp (e1.mem_iff.mpr hc) with m | r
  · tauto
  rcases List.mem_append.mp (e2.mem_iff.mpr r) with m | r
  · tauto
  rcases List.mem_append.mp (e3.mem_iff.mpr r) with m | r
  · tauto
  rcases List.mem_append.mp (e4.mem_iff.mpr r) with m | r
  · tauto
  rcases List.mem_append.mp (e5.mem_iff.mpr r) with m | r
  · tauto
  rcases List.mem_append.mp (e6.mem_iff.mpr r) with m | r
  · tauto
  rcases List.mem_append.mp (e7.mem_iff.mpr r) with m | r
  · tauto
  rcases List.mem_append.mp (e8.mem_iff.mpr r) with m | r
  · tauto
  · rw [hnil] at r
    cases r

theorem remainingAfterDeal_eq_nil {d : List Card} (h : d.length = 32) :
    remainingAfterDeal d = [] := by
  unfold remainingAfterDeal
  rw [List.filter_eq_nil_iff]
  intro a ha
  have hmem := dealCards_mem h ha
  have hstr : cardToString a ∈ dealtCardStrings (dealCards d) := by
    refine List.mem_map_of_mem cardToString ?_
    simp only [PLAYER_ORDER, List.flatMap_cons, List.flatMap_nil, List.append_nil,
      Hands.get, List.mem_append]
    tauto
  simpa using hstr

/-! Helper lemmas about `legalMoves`. -/

theorem legalMoves_subset (s : GameState) (pid : PlayerId) :
    legalMoves s pid ⊆ (s.players.get pid).hand := by
  simp only [legalMoves, getCardsOfSuit, getTrumpCards]
  split
  · exact fun a ha => ha
  split
  · exact fun a ha => ha
  split
  · exact (List.filter_sublist _).subset
  split
  · split
    · split
      · split
        · exact (List.filter_sublist _).subset
        · split
          · exact List.Subset.trans (List.filter_sublist _).subset (List.filter_sublist _).subset
          · exact (List.filter_sublist _).subset
      · exact (List.filter_sublist _).subset
    · exact fun a ha => ha
  · exact fun a ha => ha

theorem legalMoves_ne_nil (s : GameState) (pid : PlayerId)
    (hhand : (s.players.get pid).hand ≠ []) : legalMoves s pid ≠ [] := by
  simp only [legalMoves, getCardsOfSuit, getTrumpCards]
  split
  · exact hhand
  split
  · exact hhand
  split
  · next h1 => exact List.length_pos.mp h1
  split
  · split
    · next h3 =>
      split
      · split
        · exact List.length_pos.mp h3
        · split
          · next h5 => exact List.length_pos.mp h5
          · exact List.length_pos.mp h3
      · exact List.length_pos.mp h3
    · exact hhand
  · exact hhand

/-! Helper lemmas about `applyMove` and its callees. -/

theorem evaluateTrick_isSome (t : Trick) (tr : Option Suit) (h : t.cards ≠ []) :
    (evaluateTrick t tr).isSome = true := by
  cases hc : t.cards with
  | nil => exact absurd hc h
  | cons a tl =>
    cases tl with
    | nil => simp [evaluateTrick, hc]
    | cons b tl2 => simp [evaluateTrick, hc]

theorem findCard_none_iff (hand : List Card) (c : Card) :
    (hand.findIdx? fun x => x.suit = c.suit ∧ x.rank = c.rank) = none ↔ c ∉ hand := by
  rw [List.findIdx?_eq_none_iff]
  constructor
  · intro h hmem
    have hc := h c hmem
    simp at hc
  · intro h x hx
    simp only [decide_eq_false_iff_not]
    rintro ⟨h1, h2⟩
    apply h
    have : x = c := by
      cases x; cases c; simp_all
    exact this ▸ hx

theorem findCard_some_mem {hand : List Card} {c : Card} {i : Nat}
    (h : (hand.findIdx? fun x => x.suit = c.suit ∧ x.rank = c.rank) = some i) :
    c ∈ hand := by
  by_contra hnot
  rw [(findCard_none_iff hand c).mpr hnot] at h
  cases h

theorem except_isOk_map {ε α β : Type} (f : α → β) (e : Except ε α) :
    (Except.map f e).isOk = e.isOk := by
  cases e <;> rfl

theorem endOfHandScoring_isOk (s : GameState) (h : s.tricks ≠ []) :
    (endOfHandScoring s).isOk = true := by
  unfold endOfHandScoring
  cases htr : s.trump with
  | none => cases hd : s.declarer <;> rfl
  | some t =>
    cases hd : s.declarer with
    | none => rfl
    | some d =>
      dsimp only
      rw [except_isOk_map]
      split
      · cases hl : s.tricks.getLast? with
        | none => exact absurd (List.getLast?_eq_none_iff.mp hl) h
        | some lt =>
          dsimp only
          cases hw : lt.winner with
          | none => rfl
          | some w =>
            dsimp only
            cases hteam : getPlayerTeam w <;> rfl
      · rfl

/-! Helper lemmas for the trick-shape invariant. -/

theorem applyBid_currentTrick (s : GameState) (b : TrumpCall) :
    (applyBid s b).currentTrick = s.currentTrick := by
  simp only [applyBid]
  split <;> split <;> rfl

theorem applyBid_tricks (s : GameState) (b : TrumpCall) :
    (applyBid s b).tricks = s.tricks := by
  simp only [applyBid]
  split <;> split <;> rfl

theorem applyPass_currentTrick (s : GameState) (pid : PlayerId) :
    (applyPass s pid).currentTrick = s.currentTrick := by
  simp only [applyPass]
  repeat' split
  all_goals rfl

theorem applyPass_tricks (s : GameState) (pid : PlayerId) :
    (applyPass s pid).tricks = s.tricks := by
  simp only [applyPass]
  repeat' split
  all_goals rfl

theorem applyDealerChoice_currentTrick (s : GameState) (suit : Suit) :
    (applyDealerChoice s suit).currentTrick = s.currentTrick := by
  simp only [applyDealerChoice]
  split <;> rfl

theorem applyDealerChoice_tricks (s : GameState) (suit : Suit) :
    (applyDealerChoice s suit).tricks = s.tricks := by
  simp only [applyDealerChoice]
  split <;> rfl

theorem applyMove_ok_trickInv {s s2 : GameState} {pid : PlayerId} {c : Card}
    (hinv : TrickInv s) (h : applyMove s pid c = Except.ok s2) :
    TrickInv s2 ∧ (s.currentTrick.cards.length = 3 →
      s2.currentTrick.cards = [] ∧ s2.tricks.length = s.tricks.length + 1) := by
  obtain ⟨hlen, hwin, hpts, hhist⟩ := hinv
  unfold applyMove at h
  dsimp only at h
  split at h
  · cases h
  · split at h
    · next e heq => cases h
    · next s2x heq =>
      split at heq
      · next h4 =>
        split at heq
        · cases heq
        · next w heval =>
          cases heq
          split at h
          · split at h
            · cases h
            · next scores hsc =>
              cases h
              refine ⟨⟨by simp, rfl, rfl, ?_⟩, fun h3 => ⟨rfl, by simp⟩⟩
              intro t ht
              rcases List.mem_append.mp ht with hold | hnew
              · exact hhist t hold
              · rcases List.mem_singleton.mp hnew with rfl
                exact ⟨h4, rfl⟩
          · cases h
            refine ⟨⟨by simp, rfl, rfl, ?_⟩, fun h3 => ⟨rfl, by simp⟩⟩
            intro t ht
            rcases List.mem_append.mp ht with hold | hnew
            · exact hhist t hold
            · rcases List.mem_singleton.mp hnew with rfl
              exact ⟨h4, rfl⟩
      · next h4 =>
        have hlen1 : (s.currentTrick.cards ++
            [({ playerId := pid, card := c } : TrickEntry)]).length ≤ 3 := by
          simp only [List.length_append, List.length_singleton] at h4 ⊢
          omega
        cases heq
        split at h
        · split at h
          · cases h
          · next scores hsc =>
            cases h
            refine ⟨⟨hlen1, hwin, hpts, hhist⟩, fun h3 => absurd ?_ h4⟩
            simp [h3]
        · cases h
          refine ⟨⟨hlen1, hwin, hpts, hhist⟩, fun h3 => absurd ?_ h4⟩
          simp [h3]

theorem reachable_trickInv {s : GameState} (h : Reachable s) : TrickInv s := by
  induction h with
  | init config deck =>
    exact ⟨by simp [createInitialState], rfl, rfl, by simp [createInitialState]⟩
  | move pid c hr hok ih => exact (applyMove_ok_trickInv ih hok).1
  | bid b hr ih =>
    obtain ⟨h1, h2, h3, h4⟩ := ih
    exact ⟨by rw [applyBid_currentTrick]; exact h1,
      by rw [applyBid_currentTrick]; exact h2,
      by rw [applyBid_currentTrick]; exact h3,
      by rw [applyBid_tricks]; exact h4⟩
  | pass pid hr ih =>
    obtain ⟨h1, h2, h3, h4⟩ := ih
    exact ⟨by rw [applyPass_currentTrick]; exact h1,
      by rw [applyPass_currentTrick]; exact h2,
      by rw [applyPass_currentTrick]; exact h3,
      by rw [applyPass_tricks]; exact h4⟩
  | dealerChoice suit hr ih =>
    obtain ⟨h1, h2, h3, h4⟩ := ih
    exact ⟨by rw [applyDealerChoice_currentTrick]; exact h1,
      by rw [applyDealerChoice_currentTrick]; exact h2,
      by rw [applyDealerChoice_currentTrick]; exact h3,
      by rw [applyDealerChoice_tricks]; exact h4⟩

/-- C1: `evaluateTrick` should return a seat whose card is undominated under
`cardBeats` with the first-trump-seen flag tracked as the spec describes
(the first trump played is beaten by any later trump; rank comparison
applies among trumps only after the first one).  This fails: on the trick
7♥ (north), 9♠ (east), A♠ (south), 8♠ (west) with trump spades, the code
returns west, whose 8♠ is beaten under `cardBeats` by south's A♠ (neither is
the trick's first trump — east's 9♠ is — so the flag is false and rank
comparison applies); south's A♠ itself is beaten by no card of the trick.
The engine's fold sets its `isFirstTrump` flag once any trump wins and never
clears it, so the last trump played always wins; the repository's own rules
document states "Highest trump wins trick". -/
theorem evaluateTrick_lastTrump_beaten :
    evaluateTrick trickLastTrump (some Suit.spades) = some PlayerId.west ∧
    ({ playerId := .west, card := { suit := .spades, rank := .r8 } } : TrickEntry)
      ∈ trickLastTrump.cards ∧
    ({ playerId := .south, card := { suit := .spades, rank := .rA } } : TrickEntry)
      ∈ trickLastTrump.cards ∧
    cardBeats { suit := .spades, rank := .rA } { suit := .spades, rank := .r8 }
      (some .spades) false = true ∧
    cardBeats { suit := .spades, rank := .r9 } { suit := .spades, rank := .rA }
      (some .spades) false = false ∧
    cardBeats { suit := .spades, rank := .r8 } { suit := .spades, rank := .rA }
      (some .spades) false = false ∧
    cardBeats { suit := .hearts, rank := .r7 } { suit := .spades, rank := .rA }
      (some .spades) false = false := by
  decide

/-- C2: the 90-point contract bonus should go to the declarer's team when
its pre-bonus total strictly exceeds 162 and to the other team otherwise.
The code instead keys the payout on team1: with east (team2) declaring and
team2 at 170 > 162 points, the bonus lands on team1 (hand scores 90 vs 170
instead of 0 vs 260); and when the declarer (north, team1, 100 points)
fails the contract, the bonus is 0 and neither team receives anything (hand
scores 100 vs 62 instead of 100 vs 152). -/
theorem endOfHandScoring_bonus_wrong_team :
    getPlayerTeam PlayerId.east = TeamId.team2 ∧
    endOfHandScoring stateDeclarerTeam2 =
      Except.ok
        { handScores := { team1 := 90, team2 := 170 }
          matchScores := { team1 := 90, team2 := 170 }
          contractBonus := 90 } ∧
    getPlayerTeam PlayerId.north = TeamId.team1 ∧
    endOfHandScoring stateContractFailed =
      Except.ok
        { handScores := { team1 := 100, team2 := 62 }
          matchScores := { team1 := 100, team2 := 62 }
          contractBonus := 0 } :=
  ⟨rfl, rfl, rfl, rfl⟩

/-- C4: the phase should become `dealerChoice` exactly when all four seats
have passed with no bid, with the talon still holding 2 cards.  In the code
the talon is empty from the deal onward and the pass counter (which counts
the pass just recorded) fires at 3: from the initial state (west to act,
south dealing), passes by west and north leave the phase at `bidding`, but
the third pass (east) — before the dealer ever acts — already moves the
phase to `dealerChoice` with the dealer to act, no bid ever made, and a
talon of length 0, not 2. -/
theorem applyPass_three_passes_dealerChoice :
    (applyPass (applyPass initialUnshuffled .west) .north).phase = Phase.bidding ∧
    (applyPass (applyPass (applyPass initialUnshuffled .west) .north) .east).phase =
      Phase.dealerChoice ∧
    (applyPass (applyPass (applyPass initialUnshuffled .west) .north) .east).currentPlayer =
      PlayerId.south ∧
    (applyPass (applyPass (applyPass initialUnshuffled .west) .north) .east).dealer =
      PlayerId.south ∧
    (applyPass (applyPass (applyPass initialUnshuffled .west) .north) .east).bids = [] ∧
    (applyPass (applyPass (applyPass initialUnshuffled .west) .north) .east).talon = [] ∧
    (((applyPass (applyPass (applyPass initialUnshuffled .west) .north) .east).players.get
        PlayerId.south).hand).length = 8 := by
  decide

/-- C10: `stringToCard` should be a left inverse of `cardToString`.  It is
not: `cardToString` emits the upper-cased first letter of the suit
("10H" for the ten of hearts), but `stringToCard` keeps that letter
(lower-cased) as the whole suit value, so the round trip of the ten of
hearts yields suit "h" instead of the original suit value "hearts" (the
rank does round-trip). -/
theorem stringToCard_roundTrip_suit_mismatch :
    cardToString { suit := Suit.hearts, rank := Rank.r10 } = "10H" ∧
    stringToCard (cardToString { suit := Suit.hearts, rank := Rank.r10 }) =
      { rank := "10", suit := "h" } ∧
    suitName Suit.hearts = "hearts" ∧
    ("h" : String) ≠ "hearts" :=
  ⟨rfl, rfl, rfl, by decide⟩

/-- C3 counterexample: dealt from the identity permutation of the 32-card
deck, every seat does hold 8 cards, but the talon holds 0 cards, not 2 —
the two dealing passes of 4 cards per seat consume the entire 32-card deck,
so no undealt cards remain. -/
theorem createInitialState_talon_not_two :
    (initialUnshuffled.players.get .north).hand.length = 8 ∧
    (initialUnshuffled.players.get .east).hand.length = 8 ∧
    (initialUnshuffled.players.get .south).hand.length = 8 ∧
    (initialUnshuffled.players.get .west).hand.length = 8 ∧
    initialUnshuffled.talon.length = 0 ∧
    initialUnshuffled.talon.length ≠ 2 := by
  decide

/-- C3 (amended): after the initial deal from any shuffle of the 32-card
deck, every one of the four seats holds exactly 8 cards and the talon is
empty (length 0, not 2): the deal hands all 32 cards out, so there are no
undealt cards left for the talon. -/
theorem createInitialState_deal_shape (config : GameConfig) (deck : List Card)
    (hperm : deck.Perm generateDeckUnshuffled) :
    ((createInitialState config deck).players.get .north).hand.length = 8 ∧
    ((createInitialState config deck).players.get .east).hand.length = 8 ∧
    ((createInitialState config deck).players.get .south).hand.length = 8 ∧
    ((createInitialState config deck).players.get .west).hand.length = 8 ∧
    (createInitialState config deck).talon = [] := by
  have hlen : deck.length = 32 := hperm.length_eq.trans rfl
  obtain ⟨hN, hE, hS, hW⟩ := dealCards_length deck hlen
  have hrem := remainingAfterDeal_eq_nil hlen
  refine ⟨?_, ?_, ?_, ?_, ?_⟩ <;>
    simp [createInitialState, Players.get, hrem, hN, hE, hS, hW]

/-- C3 witness: the amended deal-shape theorem applied to the identity
permutation of the deck. -/
theorem createInitialState_deal_shape_witness :
    generateDeckUnshuffled.Perm generateDeckUnshuffled ∧
    (((createInitialState DEFAULT_CONFIG generateDeckUnshuffled).players.get
        .north).hand.length = 8 ∧
     ((createInitialState DEFAULT_CONFIG generateDeckUnshuffled).players.get
        .east).hand.length = 8 ∧
     ((createInitialState DEFAULT_CONFIG generateDeckUnshuffled).players.get
        .south).hand.length = 8 ∧
     ((createInitialState DEFAULT_CONFIG generateDeckUnshuffled).players.get
        .west).hand.length = 8 ∧
     (createInitialState DEFAULT_CONFIG generateDeckUnshuffled).talon = []) :=
  ⟨List.Perm.refl generateDeckUnshuffled,
    createInitialState_deal_shape DEFAULT_CONFIG generateDeckUnshuffled
      (List.Perm.refl generateDeckUnshuffled)⟩

/-- C5 (amended): `applyMove` rejects a move — returns an error, leaving the
input state untouched since transitions are pure functions of it — if and
only if the submitted card is not present in the acting seat's hand; the
legal-move set is never consulted, so a card in hand but outside
`legalMoves` is accepted.  The hypothesis that at least one trick has been
completed rules out the degenerate unreachable corner in which emptying a
hand with no completed tricks crashes the last-trick bonus lookup. -/
theorem applyMove_rejects_iff_not_in_hand (s : GameState) (pid : PlayerId) (c : Card)
    (htricks : s.tricks ≠ []) :
    (applyMove s pid c).isOk = false ↔ c ∉ (s.players.get pid).hand := by
  unfold applyMove
  dsimp only
  cases hidx : ((s.players.get pid).hand.findIdx? fun x => x.suit = c.suit ∧ x.rank = c.rank) with
  | none =>
    exact iff_of_true rfl ((findCard_none_iff _ c).mp hidx)
  | some idx =>
    have hmem : c ∈ (s.players.get pid).hand := findCard_some_mem hidx
    refine iff_of_false ?_ fun hno => hno hmem
    simp only [Bool.not_eq_false]
    split
    · next e heq =>
      exfalso
      split at heq
      · next h4 =>
        split at heq
        · next heval =>
          have hsome := evaluateTrick_isSome
            { s.currentTrick with cards := s.currentTrick.cards ++ [{ playerId := pid, card := c }] }
            s.trump (by simp)
          rw [heval] at hsome
          cases hsome
        · next heq2 => cases heq
      · cases heq
    · next s2 heq =>
      have htricks2 : s2.tricks ≠ [] := by
        split at heq
        · split at heq
          · next heval =>
            cases heq
          · next w heval =>
            cases heq
            simp
        · cases heq
          exact htricks
      split
      · split
        · next e hsc =>
          exfalso
          have hok := endOfHandScoring_isOk { s2 with phase := Phase.scoring }
            (by simpa using htricks2)
          rw [hsc] at hok
          cases hok
        · rfl
      · rfl

/-- C5 counterexample: east holds 7♣ but must follow the hearts lead, so 7♣
is outside `legalMoves`; the claim says `applyMove` rejects it, yet the
transition is accepted (`applyMove` checks only hand membership, never the
legal-move set — the legality filter lives in the UI layer). -/
theorem applyMove_accepts_illegal_card :
    ({ suit := .clubs, rank := .r7 } : Card) ∈ (stateOffSuitPlay.players.get .east).hand ∧
    ({ suit := .clubs, rank := .r7 } : Card) ∉ legalMoves stateOffSuitPlay .east ∧
    (applyMove stateOffSuitPlay .east { suit := .clubs, rank := .r7 }).isOk = true := by
  decide

/-- C5 witness: the rejection criterion evaluated at a concrete state (one
completed trick in history, 7♦ not in east's hand). -/
theorem applyMove_rejects_iff_not_in_hand_witness :
    stateOffSuitPlayTricked.tricks ≠ [] ∧
    ((applyMove stateOffSuitPlayTricked .east { suit := .diamonds, rank := .r7 }).isOk
        = false ↔
      ({ suit := .diamonds, rank := .r7 } : Card) ∉
        (stateOffSuitPlayTricked.players.get .east).hand) :=
  ⟨by decide,
    applyMove_rejects_iff_not_in_hand stateOffSuitPlayTricked .east
      { suit := .diamonds, rank := .r7 } (by decide)⟩

/-- C6: for every state in phase `play` and every seat with a non-empty
hand, `legalMoves` returns a non-empty subset of that hand: it never
returns an empty set while the seat holds any card, and never returns a
card outside the hand.  (Every branch of the oracle returns either the hand
itself or a guarded-non-empty filter of it; the phase hypothesis matches the
claim although the oracle itself never inspects the phase.) -/
theorem legalMoves_nonempty_subset (s : GameState) (pid : PlayerId)
    (hphase : s.phase = Phase.play) (hhand : (s.players.get pid).hand ≠ []) :
    legalMoves s pid ≠ [] ∧ legalMoves s pid ⊆ (s.players.get pid).hand :=
  ⟨legalMoves_ne_nil s pid hhand, legalMoves_subset s pid⟩

/-- C6 witness: the oracle evaluated at a concrete play state (hearts led,
east holding A♥ and 7♣). -/
theorem legalMoves_nonempty_subset_witness :
    stateOffSuitPlay.phase = Phase.play ∧
    (stateOffSuitPlay.players.get .east).hand ≠ [] ∧
    (legalMoves stateOffSuitPlay .east ≠ [] ∧
     legalMoves stateOffSuitPlay .east ⊆ (stateOffSuitPlay.players.get .east).hand) :=
  ⟨rfl, by decide, legalMoves_nonempty_subset stateOffSuitPlay .east rfl (by decide)⟩

/-- C7: with trump fixed and a non-empty current trick, a seat holding at
least one card of the lead suit is restricted to exactly its lead-suit
cards: `legalMoves` returns precisely the filter of the hand on the suit of
the trick's first card, so no card of another suit is included and no
lead-suit card is omitted. -/
theorem legalMoves_follow_suit (s : GameState) (pid : PlayerId) (t : Suit)
    (lead : TrickEntry) (rest : List TrickEntry)
    (htrump : s.trump = some t)
    (hcards : s.currentTrick.cards = lead :: rest)
    (hhas : getCardsOfSuit (s.players.get pid).hand lead.card.suit ≠ []) :
    legalMoves s pid = getCardsOfSuit (s.players.get pid).hand lead.card.suit := by
  simp only [legalMoves, htrump, hcards]
  rw [if_pos (List.length_pos.mpr hhas)]

/-- C7 witness: east holds A♥ against a hearts lead, and the oracle returns
exactly east's hearts. -/
theorem legalMoves_follow_suit_witness :
    stateOffSuitPlay.trump = some Suit.spades ∧
    stateOffSuitPlay.currentTrick.cards =
      { playerId := .north, card := { suit := .hearts, rank := .r7 } } :: [] ∧
    getCardsOfSuit (stateOffSuitPlay.players.get .east).hand Suit.hearts ≠ [] ∧
    legalMoves stateOffSuitPlay .east =
      getCardsOfSuit (stateOffSuitPlay.players.get .east).hand Suit.hearts :=
  ⟨rfl, rfl, by decide,
    legalMoves_follow_suit stateOffSuitPlay .east Suit.spades
      { playerId := .north, card := { suit := .hearts, rank := .r7 } } []
      rfl rfl (by decide)⟩

/-- C8 counterexample: with `mustTrumpWhenVoid := false`, trump spades
already in the trick and south void in the lead suit holding 8♠ and 7♦, the
claim says any card in south's hand is legal; the oracle nevertheless
returns only the trump 8♠ and excludes the in-hand 7♦. -/
theorem legalMoves_ignores_mustTrumpWhenVoid :
    stateVoidFlagOff.config.mustTrumpWhenVoid = false ∧
    ({ suit := .diamonds, rank := .r7 } : Card) ∈
      (stateVoidFlagOff.players.get .south).hand ∧
    legalMoves stateVoidFlagOff .south = [{ suit := .spades, rank := .r8 }] ∧
    ({ suit := .diamonds, rank := .r7 } : Card) ∉ legalMoves stateVoidFlagOff .south := by
  decide

/-- C8 (amended): the trump obligation for a seat void in the lead suit,
holding trump, with trump already in the trick, is imposed unconditionally —
`legalMoves` never reads `mustTrumpWhenVoid`, so the restriction applies
whether the flag is true or false (the hypotheses below say nothing about
the flag).  The `overtrumpRequired = false` hypothesis keeps the restriction
at exactly the trump cards, as the claim words it. -/
theorem legalMoves_trump_obligation_unconditional (s : GameState) (pid : PlayerId)
    (t : Suit) (lead : TrickEntry) (rest : List TrickEntry)
    (htrump : s.trump = some t)
    (hcards : s.currentTrick.cards = lead :: rest)
    (hvoid : getCardsOfSuit (s.players.get pid).hand lead.card.suit = [])
    (hintrick : (lead :: rest).any (fun c => c.card.suit = t) = true)
    (htrumps : getTrumpCards (s.players.get pid).hand t ≠ [])
    (hover : s.config.overtrumpRequired = false) :
    legalMoves s pid = getTrumpCards (s.players.get pid).hand t := by
  simp only [legalMoves, htrump, hcards, hvoid, hover, List.length_nil, gt_iff_lt,
    lt_self_iff_false, if_false, hintrick, if_true, Bool.false_eq_true]
  rw [if_pos (List.length_pos.mpr htrumps)]

/-- C8 witness: the unconditional trump obligation applied to the concrete
flag-off state (south void in hearts, trump 9♠ in the trick, 8♠ in hand). -/
theorem legalMoves_trump_obligation_unconditional_witness :
    stateVoidFlagOff.trump = some Suit.spades ∧
    stateVoidFlagOff.currentTrick.cards =
      { playerId := .north, card := { suit := .hearts, rank := .r7 } } ::
        [{ playerId := .east, card := { suit := .spades, rank := .r9 } }] ∧
    getCardsOfSuit (stateVoidFlagOff.players.get .south).hand Suit.hearts = [] ∧
    getTrumpCards (stateVoidFlagOff.players.get .south).hand Suit.spades ≠ [] ∧
    stateVoidFlagOff.config.overtrumpRequired = false ∧
    legalMoves stateVoidFlagOff .south =
      getTrumpCards (stateVoidFlagOff.players.get .south).hand Suit.spades :=
  ⟨rfl, rfl, by decide, by decide, rfl,
    legalMoves_trump_obligation_unconditional stateVoidFlagOff .south Suit.spades
      { playerId := .north, card := { suit := .hearts, rank := .r7 } }
      [{ playerId := .east, card := { suit := .spades, rank := .r9 } }]
      rfl rfl (by decide) (by decide) (by decide) rfl⟩

/-- C9: in every reachable state the current trick holds between 0 and 4
cards; its winner is set if and only if it holds 4 cards (transitions
finalize a 4-card trick immediately, so a reachable current trick in fact
has at most 3 cards, a cleared winner and cleared points); every trick in
the completed history has exactly 4 cards and a set winner (its points are
assigned by `scoreTrick` at the same moment); and whenever `applyMove`
finalizes a trick (a 4th card lands on a 3-card trick) the resulting
current trick is cleared to empty with the finalized trick appended to the
history. -/
theorem reachable_trick_shape (s : GameState) (h : Reachable s) :
    (s.currentTrick.cards.length ≤ 4 ∧
     (s.currentTrick.winner.isSome = true ↔ s.currentTrick.cards.length = 4) ∧
     (s.currentTrick.cards.length ≠ 4 → s.currentTrick.points = 0) ∧
     ∀ t ∈ s.tricks, t.cards.length = 4 ∧ t.winner.isSome = true) ∧
    (∀ (pid : PlayerId) (c : Card) (s2 : GameState),
      applyMove s pid c = Except.ok s2 →
      s.currentTrick.cards.length = 3 →
      s2.currentTrick.cards = [] ∧ s2.tricks.length = s.tricks.length + 1) := by
  have hinv := reachable_trickInv h
  obtain ⟨h1, h2, h3, h4⟩ := hinv
  refine ⟨⟨by omega, ?_, fun _ => h3, h4⟩,
    fun pid c s2 hok h3len => (applyMove_ok_trickInv ⟨h1, h2, h3, h4⟩ hok).2 h3len⟩
  rw [h2]
  simp only [Option.isSome_none, Bool.false_eq_true, false_iff]
  omega

/-- C9 witness: the trick-shape invariant instantiated at the freshly dealt
initial state. -/
theorem reachable_trick_shape_witness :
    Reachable initialUnshuffled ∧
    initialUnshuffled.currentTrick.cards.length ≤ 4 ∧
    (initialUnshuffled.currentTrick.winner.isSome = true ↔
      initialUnshuffled.currentTrick.cards.length = 4) ∧
    ∀ t ∈ initialUnshuffled.tricks, t.cards.length = 4 ∧ t.winner.isSome = true :=
  ⟨Reachable.init DEFAULT_CONFIG generateDeckUnshuffled,
    (reachable_trick_shape initialUnshuffled
      (Reachable.init DEFAULT_CONFIG generateDeckUnshuffled)).1.1,
    (reachable_trick_shape initialUnshuffled
      (Reachable.init DEFAULT_CONFIG generateDeckUnshuffled)).1.2.1,
    (reachable_trick_shape initialUnshuffled
      (Reachable.init DEFAULT_CONFIG generateDeckUnshuffled)).1.2.2.2⟩

end Bela
